import Mathlib

/-!
Verification of the TMRecOrg meeting-file renaming script (`rename.py`).

The script reconciles a Tencent-Meeting attendance spreadsheet with the
meeting's artifact files (video recording, transcription, summary) found in
the same directory, and renames all of them to a canonical stem derived from
the meeting date and theme.

The development below is a shallow embedding of `rename.py`:
* timestamps (`datetime` values) are modelled as `Int` epoch seconds, with a
  proleptic-Gregorian conversion for `strftime` formatting;
* the dynamic `dict` record produced by `read_meeting_info_from_excel` is an
  association list from string keys to values, and a failed key lookup
  (Python `KeyError`) is an `Except.error`;
* a directory is the list of filenames it contains, `glob.glob` is a filter
  by a shell-glob matcher (`*`, `?`, `[...]` character classes, as used by
  Python `fnmatch` on the patterns occurring in the script);
* `os.rename` follows its documented POSIX behaviour: it fails when the
  source is missing and silently replaces an existing regular-file target.
-/

/-- Decidable equality of `Except` results, for evaluating the embedded
functions on concrete inputs. -/
instance instDecEqExceptRes {ε α : Type} [DecidableEq ε] [DecidableEq α] :
    DecidableEq (Except ε α) := fun x y =>
  match x, y with
  | .ok a, .ok b => if h : a = b then isTrue (by rw [h]) else isFalse (by simp [h])
  | .error a, .error b => if h : a = b then isTrue (by rw [h]) else isFalse (by simp [h])
  | .ok _, .error _ => isFalse (by simp)
  | .error _, .ok _ => isFalse (by simp)

namespace TMRecOrg

/-! ## Shell-glob matching (semantics of `glob.glob` on one filename) -/

/-- One token of a compiled glob pattern: a literal character, `?`, `*`, or a
character class given as a list of inclusive ranges (a single character `c`
in a class is the range `(c, c)`). -/
inductive GTok where
  | lit (c : Char)
  | one
  | star
  | cls (ranges : List (Char × Char))
deriving Repr, DecidableEq

/-- Read the body of a `[...]` character class: the inclusive ranges up to
the closing bracket (a lone character stands for a one-point range), paired
with the rest of the pattern. -/
def readClass : List Char → List (Char × Char) × List Char
  | [] => ([], [])
  | ']' :: rest => ([], rest)
  | a :: '-' :: b :: rest =>
      if b = ']' then ([(a, a), ('-', '-')], rest)
      else
        let p := readClass rest
        ((a, b) :: p.1, p.2)
  | a :: rest =>
      let p := readClass rest
      ((a, a) :: p.1, p.2)

/-- Compile a glob pattern (as a character list) into tokens: `*`, `?`,
`[...]` classes, and literal characters. The fuel argument is only there to
make the recursion structural; one character is consumed per step and
`readClass` never lengthens its input, so starting it at the pattern length
(as `tokenize` does) it is never exhausted. -/
def tokenizeF : Nat → List Char → List GTok
  | _, [] => []
  | 0, _ => []
  | fuel + 1, '*' :: rest => .star :: tokenizeF fuel rest
  | fuel + 1, '?' :: rest => .one :: tokenizeF fuel rest
  | fuel + 1, '[' :: rest =>
      let p := readClass rest
      .cls p.1 :: tokenizeF fuel p.2
  | fuel + 1, c :: rest => .lit c :: tokenizeF fuel rest

/-- Compile a glob pattern into tokens. -/
def tokenize (l : List Char) : List GTok :=
  tokenizeF l.length l

/-- Does character `c` fall in one of the inclusive ranges of a class? -/
def inClass (ranges : List (Char × Char)) (c : Char) : Bool :=
  ranges.any fun r => decide (r.1 ≤ c ∧ c ≤ r.2)

/-- Glob matching of a token list against a character list, with the usual
shell semantics: `*` matches any (possibly empty) run of characters — that
is, the rest of the pattern matches some suffix of the text — `?` exactly
one character, a class one character inside it, a literal itself. -/
def gmatch : List GTok → List Char → Bool
  | [], ss => ss.isEmpty
  | .star :: ps, ss => ss.tails.any fun suf => gmatch ps suf
  | .one :: _, [] => false
  | .one :: ps, _ :: ss => gmatch ps ss
  | .lit _ :: _, [] => false
  | .lit a :: ps, c :: ss => a == c && gmatch ps ss
  | .cls _ :: _, [] => false
  | .cls rs :: ps, c :: ss => inClass rs c && gmatch ps ss

/-- `fnmatch`-style test of one filename against a glob pattern; `glob.glob`
over a directory is modelled as filtering the directory listing with this. -/
def globMatch (pat name : String) : Bool :=
  gmatch (tokenize pat.data) name.data

/-- `glob.glob(os.path.join(directory, pattern))`: the files of the listing
that match the pattern, in listing order (paths kept relative to the
directory, which is the only directory the script ever works in). -/
def globDir (files : List String) (pat : String) : List String :=
  files.filter fun f => globMatch pat f

/-! ## Civil (proleptic Gregorian) calendar on epoch seconds

Python `datetime` values are embedded as `Int` seconds since the epoch of
their own (naive, local) timeline; `timedelta(seconds = d)` addition is
integer addition, and `strftime` goes through the civil-date conversion
below (Howard Hinnant's `days_from_civil` / `civil_from_days`). -/

/-- Broken-down naive datetime, as `strftime` sees it. -/
structure CivilDT where
  year : Int
  month : Int
  day : Int
  hour : Int
  minute : Int
  second : Int
deriving Repr, DecidableEq

/-- Day count since 1970-01-01 of a civil date (proleptic Gregorian). -/
def daysFromCivil (y m d : Int) : Int :=
  let y2 := if m ≤ 2 then y - 1 else y
  let era := (if 0 ≤ y2 then y2 else y2 - 399).tdiv 400
  let yoe := y2 - era * 400
  let mp := (m + 9).emod 12
  let doy := (153 * mp + 2).tdiv 5 + d - 1
  let doe := yoe * 365 + yoe.tdiv 4 - yoe.tdiv 100 + doy
  era * 146097 + doe - 719468

/-- Civil date (year, month, day) of a day count since 1970-01-01. -/
def civilFromDays (z0 : Int) : Int × Int × Int :=
  let z := z0 + 719468
  let era := (if 0 ≤ z then z else z - 146096).tdiv 146097
  let doe := z - era * 146097
  let yoe := (doe - doe.tdiv 1460 + doe.tdiv 36524 - doe.tdiv 146096).tdiv 365
  let y := yoe + era * 400
  let doy := doe - (365 * yoe + yoe.tdiv 4 - yoe.tdiv 100)
  let mp := (5 * doy + 2).tdiv 153
  let d := doy - (153 * mp + 2).tdiv 5 + 1
  let m := mp + (if mp < 10 then 3 else -9)
  (y + (if m ≤ 2 then 1 else 0), m, d)

/-- Epoch seconds of a broken-down datetime. -/
def toSeconds (dt : CivilDT) : Int :=
  daysFromCivil dt.year dt.month dt.day * 86400
    + dt.hour * 3600 + dt.minute * 60 + dt.second

/-- Broken-down datetime of an epoch-second count. -/
def ofSeconds (t : Int) : CivilDT :=
  let days := t.ediv 86400
  let rem := t.emod 86400
  let c := civilFromDays days
  { year := c.1, month := c.2.1, day := c.2.2
    hour := rem.ediv 3600, minute := (rem.emod 3600).ediv 60
    second := rem.emod 60 }

/-- Zero-padded decimal rendering to width 2 of a field value. -/
def pad2 (n : Int) : String :=
  if n < 10 then "0" ++ n.toNat.repr else n.toNat.repr

/-- Zero-padded decimal rendering to width 4 of a year value. -/
def pad4 (n : Int) : String :=
  if n < 10 then "000" ++ n.toNat.repr
  else if n < 100 then "00" ++ n.toNat.repr
  else if n < 1000 then "0" ++ n.toNat.repr
  else n.toNat.repr

/-- `strftime("%Y%m%d%H%M%S")` of an epoch-second timestamp. -/
def fmtCompact (t : Int) : String :=
  let c := ofSeconds t
  pad4 c.year ++ pad2 c.month ++ pad2 c.day
    ++ pad2 c.hour ++ pad2 c.minute ++ pad2 c.second

/-- `strftime("%Y-%m-%d")` of an epoch-second timestamp. -/
def fmtYMD (t : Int) : String :=
  let c := ofSeconds t
  pad4 c.year ++ "-" ++ pad2 c.month ++ "-" ++ pad2 c.day

/-! ## The meeting-info record (the Python `dict` built by
`read_meeting_info_from_excel`) and the spreadsheet input -/

/-- A value stored in the meeting-info `dict`: the script only ever stores
strings (theme, meeting number) and `datetime` values (timestamps). -/
inductive PyVal where
  | str (s : String)
  | time (t : Int)
deriving Repr, DecidableEq

/-- The meeting-info record: a Python `dict` with string keys. -/
abbrev MeetingInfo := List (String × PyVal)

/-- `mi[k]`: dictionary lookup; a missing key raises `KeyError` (modelled as
`Except.error`). -/
def dictGet (mi : MeetingInfo) (k : String) : Except String PyVal :=
  match mi.find? fun kv => kv.1 == k with
  | some kv => .ok kv.2
  | none => .error ("KeyError: " ++ k)

/-- `str(v)` / f-string interpolation of a stored value; `str` of a
`datetime` is its `YYYY-MM-DD HH:MM:SS` rendering. -/
def pyStr : PyVal → String
  | .str s => s
  | .time t =>
      let c := ofSeconds t
      fmtYMD t ++ " " ++ pad2 c.hour ++ ":" ++ pad2 c.minute ++ ":" ++ pad2 c.second

/-- `mi[k].strftime(...)`-style access: the key must exist (`KeyError`
otherwise) and hold a `datetime` (`AttributeError` otherwise). -/
def getTime (mi : MeetingInfo) (k : String) : Except String Int := do
  match ← dictGet mi k with
  | .time t => .ok t
  | .str _ => .error ("AttributeError: " ++ k)

/-- One meeting spreadsheet as the external pandas adapter decodes it:
its filename, the theme cell (row 0 col 1), the meeting-number cell
(row 1 col 1), and the per-participant timing table, one
(first-join-time, last-leave-time) pair per participant row, both as
epoch-second timestamps. -/
structure Sheet where
  name : String
  theme : String
  number : String
  rows : List (Int × Int)
deriving Repr, DecidableEq

/-! ## The functions of `rename.py` -/

/-- `EXCEL_PATTERN` from `rename.py` line 6. -/
def EXCEL_PATTERN : String := "*-[0-9]*-[0-9a-zA-Z]*.xlsx"

/-- `extract_meeting_times` (lines 9-33): the minimum of the first-join-time
column paired with the maximum of the last-leave-time column. On an empty
participant table the column relabelling `df.iloc[0]` raises (modelled as an
`IndexError`). -/
def extract_meeting_times : List (Int × Int) → Except String (Int × Int)
  | [] => .error ("IndexError: empty participant table")
  | r :: rs =>
      .ok (rs.foldl (fun a b => min a b.1) r.1, rs.foldl (fun a b => max a b.2) r.2)

/-- `read_meeting_info_from_excel` (lines 36-51): the returned `dict` holds
exactly the keys `meeting_theme`, `meeting_number`, `earliest_join_time`,
`latest_leave_time`. -/
def read_meeting_info_from_excel (s : Sheet) : Except String MeetingInfo := do
  let p ← extract_meeting_times s.rows
  .ok [("meeting_theme", .str s.theme), ("meeting_number", .str s.number),
       ("earliest_join_time", .time p.1), ("latest_leave_time", .time p.2)]

/-- The single video glob pattern of `find_matching_video_file` (line 99):
`TM-<scheduled_start_time:%Y%m%d%H%M%S>-<meeting_number>-*.mp4`. -/
def video_pattern (sst : Int) (number : String) : String :=
  "TM-" ++ fmtCompact sst ++ "-" ++ number ++ "-*.mp4"

/-- `find_matching_video_file` (lines 96-107): build the one video pattern
from `meeting_info["scheduled_start_time"]` (a `KeyError` on records built by
`read_meeting_info_from_excel`), glob it, and accept only a unique match. -/
def find_matching_video_file (files : List String) (mi : MeetingInfo) :
    Except String (Option String) := do
  let sst ← getTime mi "scheduled_start_time"
  let number ← dictGet mi "meeting_number"
  let matched := globDir files (video_pattern sst (pyStr number))
  if matched.length = 1 then .ok matched.head? else .ok none

/-- The summary glob pattern of line 118:
`TencentMeeting_<t:%Y%m%d%H%M%S>_Summary*.txt`. -/
def summary_pattern (t : Int) : String :=
  "TencentMeeting_" ++ fmtCompact t ++ "_Summary*.txt"

/-- The transcription glob pattern of line 119:
`TencentMeeting_(<t:%Y%m%d%H%M%S>)_Transcription*.txt`. -/
def transcription_pattern (t : Int) : String :=
  "TencentMeeting_(" ++ fmtCompact t ++ ")_Transcription*.txt"

/-- The inclusive signed-second tolerance window `range(-tf, tf + 1)` of
line 114, generalized over the flexibility bound (the script hardcodes
`time_flexibility = 2`). -/
def windowOffsets (tf : Nat) : List Int :=
  (List.range (2 * tf + 1)).map fun i => (i : Int) - tf

/-- The candidate pattern set of `find_matching_transcription_files` for an
arbitrary offset window: per offset, the summary pattern then the
transcription pattern at the shifted end time (lines 114-119). -/
def transPatterns (endTime : Int) (offsets : List Int) : List String :=
  offsets.flatMap fun d => [summary_pattern (endTime + d), transcription_pattern (endTime + d)]

/-- The pooled match list of `find_matching_transcription_files` for an
arbitrary offset window: per offset, summary matches then transcription
matches, all appended into one list (lines 111-122). -/
def transMatches (files : List String) (endTime : Int) (offsets : List Int) : List String :=
  offsets.flatMap fun d =>
    globDir files (summary_pattern (endTime + d))
      ++ globDir files (transcription_pattern (endTime + d))

/-- The summary-kind matches alone over a window: the files matched by some
summary pattern of the window. -/
def summaryMatches (files : List String) (endTime : Int) (offsets : List Int) : List String :=
  offsets.flatMap fun d => globDir files (summary_pattern (endTime + d))

/-- `find_matching_transcription_files` (lines 110-128): pool the summary and
transcription matches over the hardcoded window `range(-2, 3)` around
`meeting_info["end_time"]` (a `KeyError` on records built by
`read_meeting_info_from_excel`); accept exactly when the pooled list has two
entries, returning its first entry as the summary and its second as the
transcription. -/
def find_matching_transcription_files (files : List String) (mi : MeetingInfo) :
    Except String (Option String × Option String) := do
  let endTime ← getTime mi "end_time"
  let matched := transMatches files endTime (windowOffsets 2)
  if matched.length = 2 then .ok (matched[0]?, matched[1]?) else .ok (none, none)

/-! ## The batch orchestrator `process_all_meetings` -/

/-- The canonical target stem of line 139, evaluated left to right as the
f-string does: first `meeting_info["scheduled_start_time"].strftime("%Y-%m-%d")`
(so a `KeyError` on a record lacking that key), then
`meeting_info["meeting_theme"]`. -/
def new_base_name (mi : MeetingInfo) : Except String String := do
  let sst ← getTime mi "scheduled_start_time"
  let theme ← dictGet mi "meeting_theme"
  .ok ("【" ++ fmtYMD sst ++ "】" ++ pyStr theme)

/-- The body of the per-spreadsheet loop of `process_all_meetings`
(lines 138-160), after `read_meeting_info_from_excel`: compute the stem,
resolve the three artifacts, and either skip the meeting (`none`, line 148)
or materialize its four rename pairs in source order
(spreadsheet, video, summary, transcription). -/
def process_sheet (files : List String) (excelName : String) (mi : MeetingInfo) :
    Except String (Option (List (String × String))) := do
  let nb ← new_base_name mi
  let video ← find_matching_video_file files mi
  let st ← find_matching_transcription_files files mi
  match video, st.1, st.2 with
  | some v, some su, some tr =>
      .ok (some [(excelName, nb ++ ".xlsx"), (v, nb ++ ".mp4"),
                 (su, nb ++ "_Summary.txt"), (tr, nb ++ "_Transcription.txt")])
  | _, _, _ => .ok none

/-- The resolution loop of `process_all_meetings` (lines 137-160),
parameterized by the record reader so the loop structure can be stated for
arbitrary records; the script instantiates it with
`read_meeting_info_from_excel`. Spreadsheets are the files of the directory
matching `EXCEL_PATTERN`; the accumulated list is `rename_peer`. An exception
anywhere propagates (there is no handler in the source). -/
def process_loop (reader : Sheet → Except String MeetingInfo) (files : List String) :
    List Sheet → Except String (List (String × String))
  | [] => .ok []
  | s :: rest =>
      if globMatch EXCEL_PATTERN s.name then do
        let mi ← reader s
        let ops ← process_sheet files s.name mi
        let more ← process_loop reader files rest
        match ops with
        | some grp => .ok (grp ++ more)
        | none => .ok more
      else process_loop reader files rest

/-- `process_all_meetings` (lines 131-164), resolution phase: the `rename_peer`
list it builds before the rename loop runs, or the uncaught exception. The
directory is given as its file listing plus the decoded content of each
spreadsheet file in it. -/
def process_all_meetings (files : List String) (sheets : List Sheet) :
    Except String (List (String × String)) :=
  process_loop read_meeting_info_from_excel files sheets

/-! ## Filesystem state and `os.rename` (POSIX) -/

/-- A directory's regular files: name-content pairs, at most one per name. -/
abbrev Fs := List (String × String)

/-- Content of a named file, if present. -/
def fsGet (fs : Fs) (n : String) : Option String :=
  (fs.find? fun e => e.1 == n).map fun e => e.2

/-- Remove a named file. -/
def fsRemove (fs : Fs) (n : String) : Fs :=
  fs.filter fun e => e.1 != n

/-- Create or replace a named file. -/
def fsSet (fs : Fs) (n v : String) : Fs :=
  fsRemove fs n ++ [(n, v)]

/-- `os.rename(src, dst)` with its documented POSIX behaviour for regular
files: `FileNotFoundError` when the source does not exist, and otherwise the
source is moved onto `dst`, silently replacing any existing file there. -/
def os_rename (src dst : String) (fs : Fs) : Except String Fs :=
  match fsGet fs src with
  | none => .error ("FileNotFoundError: " ++ src)
  | some c => .ok (fsSet (fsRemove fs src) dst c)

/-- The rename loop of lines 162-164: apply the accumulated pairs in order,
stopping at the first failure (uncaught exception), returning the error, if
any, and the filesystem as it then stands. -/
def applyRenames : List (String × String) → Fs → Option String × Fs
  | [], fs => (none, fs)
  | p :: rest, fs =>
      match os_rename p.1 p.2 fs with
      | .error e => (some e, fs)
      | .ok fs2 => applyRenames rest fs2

/-- A whole run of `process_all_meetings` against a filesystem, with the
loop parameterized by the record reader as in `process_loop`: resolve every
spreadsheet, then apply the accumulated renames; an exception in the
resolution phase aborts before any rename. -/
def run_batch (reader : Sheet → Except String MeetingInfo) (files : List String)
    (sheets : List Sheet) (fs : Fs) : Option String × Fs :=
  match process_loop reader files sheets with
  | .error e => (some e, fs)
  | .ok peers => applyRenames peers fs

/-! ## Spec-side definitions, for comparison with the code -/

/-- The canonical base name as the spec (§3) defines it:
`【<earliest_join_time:YYYY-MM-DD>】<theme>`. Stated from the spec's words for
comparison with the stem line 139 actually computes. -/
def canonical_base_name (earliestJoin : Int) (theme : String) : String :=
  "【" ++ fmtYMD earliestJoin ++ "】" ++ theme

/-- The video candidate pattern set as the spec (§4.2) describes it: one
pattern per signed-second offset of the tolerance window, each obtained by
adding the offset to the anchor timestamp. Stated from the spec's words for
comparison with the single pattern the code globs. -/
def spec_video_patterns (anchor : Int) (number : String) (offsets : List Int) : List String :=
  offsets.map fun d => video_pattern (anchor + d) number

/-- The video candidate pattern set `find_matching_video_file` actually uses:
the single pattern of line 99. -/
def code_video_patterns (sst : Int) (number : String) : List String :=
  [video_pattern sst number]

/-! ## Concrete example inputs -/

/-- Example last-leave / end timestamp: 2023-09-12 11:00:00. -/
def exT0 : Int := toSeconds ⟨2023, 9, 12, 11, 0, 0⟩

/-- Example earliest-join timestamp: 2023-09-12 09:58:03. -/
def exJoin : Int := toSeconds ⟨2023, 9, 12, 9, 58, 3⟩

/-- An example meeting spreadsheet with one participant row. -/
def exSheet : Sheet :=
  ⟨"Billy202309-713309188-3eb567ce7f7b.xlsx", "Q3 Planning", "713309188",
   [(exJoin, exT0)]⟩

/-- A second example spreadsheet, also matching the discovery pattern. -/
def exSheet2 : Sheet :=
  ⟨"Standup202310-555000111-aa11bb22.xlsx", "Standup", "555000111",
   [(exJoin, exT0)]⟩

/-- A malformed spreadsheet: discovery-pattern name, empty timing table. -/
def exSheetEmpty : Sheet :=
  ⟨"Retro202310-777000999-cc33dd44.xlsx", "Retro", "777000999", []⟩

/-- The record `read_meeting_info_from_excel` produces for `exSheet`. -/
def exInfo : MeetingInfo :=
  [("meeting_theme", .str "Q3 Planning"), ("meeting_number", .str "713309188"),
   ("earliest_join_time", .time exJoin), ("latest_leave_time", .time exT0)]

/-- A record carrying the keys the matchers look up, for exercising them
directly. -/
def exFullInfo : MeetingInfo :=
  [("scheduled_start_time", .time exT0), ("meeting_theme", .str "Q3 Planning"),
   ("meeting_number", .str "713309188"), ("end_time", .time exT0)]

/-- A record carrying only `end_time`, for the transcription matcher. -/
def exEndInfo : MeetingInfo := [("end_time", .time exT0)]

/-- A summary file timestamped at `exT0` exactly. -/
def exSummaryA : String := "TencentMeeting_" ++ fmtCompact exT0 ++ "_Summary.txt"

/-- A second summary file, one second later, also inside the window. -/
def exSummaryB : String := "TencentMeeting_" ++ fmtCompact (exT0 + 1) ++ "_Summary_2.txt"

/-- Two video files for the same meeting at the same timestamp. -/
def exVideoA : String := "TM-" ++ fmtCompact exT0 ++ "-713309188-0.mp4"

/-- Second recording segment of the same meeting. -/
def exVideoB : String := "TM-" ++ fmtCompact exT0 ++ "-713309188-1.mp4"

/-- The compiled token list of `EXCEL_PATTERN` (equal to
`tokenize EXCEL_PATTERN.data`, see `tokenize_excel`). -/
def excelToks : List GTok :=
  [.star, .lit '-', .cls [('0', '9')], .star, .lit '-',
   .cls [('0', '9'), ('a', 'z'), ('A', 'Z')], .star,
   .lit '.', .lit 'x', .lit 'l', .lit 's', .lit 'x']

/-! ## Helper lemmas -/

theorem tokenize_excel : tokenize EXCEL_PATTERN.data = excelToks := by decide

theorem gmatch_star_absorb (ps : List GTok) (pre ss : List Char)
    (h : gmatch ps ss = true) : gmatch (.star :: ps) (pre ++ ss) = true := by
  simp only [gmatch, List.any_eq_true]
  exact ⟨ss, (List.mem_tails ss (pre ++ ss)).mpr (List.suffix_append pre ss), h⟩

theorem gmatch_lit_cons (a : Char) (ps : List GTok) (ss : List Char) :
    gmatch (.lit a :: ps) (a :: ss) = gmatch ps ss := by
  simp [gmatch]

theorem gmatch_cls_cons (rs : List (Char × Char)) (c : Char) (ps : List GTok)
    (ss : List Char) (h : inClass rs c = true) :
    gmatch (.cls rs :: ps) (c :: ss) = gmatch ps ss := by
  simp [gmatch, h]

theorem gmatch_last_lit (ps : List GTok) (c : Char) :
    ∀ ss : List Char, gmatch (ps ++ [.lit c]) ss = true → ss.getLast? = some c := by
  induction ps with
  | nil =>
      intro ss h
      cases ss with
      | nil => simp [gmatch] at h
      | cons c2 ss2 =>
          simp only [List.nil_append, gmatch, Bool.and_eq_true, beq_iff_eq,
            List.isEmpty_iff] at h
          rw [h.1, h.2]
          rfl
  | cons t ps ih =>
      intro ss h
      cases t with
      | star =>
          simp only [List.cons_append, gmatch, List.any_eq_true] at h
          obtain ⟨suf, hmem, hsuf⟩ := h
          have hl := ih suf hsuf
          have hne : suf ≠ [] := by
            intro he
            rw [he] at hl
            simp at hl
          obtain ⟨pre2, hp⟩ := (List.mem_tails suf ss).mp hmem
          rw [← hp, List.getLast?_append_of_ne_nil _ hne]
          exact hl
      | one =>
          cases ss with
          | nil => simp [gmatch] at h
          | cons c2 ss2 =>
              simp only [List.cons_append, gmatch] at h
              have hl := ih ss2 h
              have hne : ss2 ≠ [] := by
                intro he
                rw [he] at hl
                simp at hl
              rw [show c2 :: ss2 = [c2] ++ ss2 from rfl,
                List.getLast?_append_of_ne_nil _ hne]
              exact hl
      | lit a =>
          cases ss with
          | nil => simp [gmatch] at h
          | cons c2 ss2 =>
              simp only [List.cons_append, gmatch, Bool.and_eq_true] at h
              have hl := ih ss2 h.2
              have hne : ss2 ≠ [] := by
                intro he
                rw [he] at hl
                simp at hl
              rw [show c2 :: ss2 = [c2] ++ ss2 from rfl,
                List.getLast?_append_of_ne_nil _ hne]
              exact hl
      | cls rs =>
          cases ss with
          | nil => simp [gmatch] at h
          | cons c2 ss2 =>
              simp only [List.cons_append, gmatch, Bool.and_eq_true] at h
              have hl := ih ss2 h.2
              have hne : ss2 ≠ [] := by
                intro he
                rw [he] at hl
                simp at hl
              rw [show c2 :: ss2 = [c2] ++ ss2 from rfl,
                List.getLast?_append_of_ne_nil _ hne]
              exact hl

theorem pad2_shape (n : Int) (h0 : 0 ≤ n) (h99 : n ≤ 99) :
    ∃ c rest, (pad2 n).data = c :: rest ∧ '0' ≤ c ∧ c ≤ '9' := by
  interval_cases n <;> exact ⟨_, _, rfl, by decide, by decide⟩

theorem fmtYMD_eq (t y mo d : Int) (h : civilFromDays (t.ediv 86400) = (y, mo, d)) :
    fmtYMD t = pad4 y ++ "-" ++ pad2 mo ++ "-" ++ pad2 d := by
  simp [fmtYMD, ofSeconds, h]

theorem excel_toks_match (a rm rd : List Char) (cm cd : Char)
    (hcm : '0' ≤ cm ∧ cm ≤ '9') (hcd : '0' ≤ cd ∧ cd ≤ '9') :
    gmatch excelToks
      (a ++ '-' :: cm :: (rm ++ '-' :: cd :: (rd ++ ".xlsx".data))) = true := by
  show gmatch (.star :: [.lit '-', .cls [('0', '9')], .star, .lit '-',
      .cls [('0', '9'), ('a', 'z'), ('A', 'Z')], .star,
      .lit '.', .lit 'x', .lit 'l', .lit 's', .lit 'x'])
      (a ++ '-' :: cm :: (rm ++ '-' :: cd :: (rd ++ ".xlsx".data))) = true
  apply gmatch_star_absorb
  rw [gmatch_lit_cons]
  rw [gmatch_cls_cons _ _ _ _ (by
    simp only [inClass, List.any_cons, List.any_nil, Bool.or_false, decide_eq_true_eq]
    exact hcm)]
  apply gmatch_star_absorb
  rw [gmatch_lit_cons]
  rw [gmatch_cls_cons _ _ _ _ (by
    simp only [inClass, List.any_cons, List.any_nil, Bool.or_false, Bool.or_eq_true,
      decide_eq_true_eq]
    exact Or.inl hcd)]
  apply gmatch_star_absorb
  decide

theorem excel_no_match_of_last (s : String) (c : Char)
    (h : s.data.getLast? = some c) (hc : c ≠ 'x') :
    globMatch EXCEL_PATTERN s = false := by
  cases hb : globMatch EXCEL_PATTERN s with
  | false => rfl
  | true =>
      exfalso
      rw [globMatch, tokenize_excel] at hb
      have hsplit : excelToks
          = [GTok.star, .lit '-', .cls [('0', '9')], .star, .lit '-',
             .cls [('0', '9'), ('a', 'z'), ('A', 'Z')], .star,
             .lit '.', .lit 'x', .lit 'l', .lit 's'] ++ [.lit 'x'] := rfl
      rw [hsplit] at hb
      have hl := gmatch_last_lit _ 'x' s.data hb
      rw [h] at hl
      exact hc (Option.some.inj hl)

theorem foldl_min_le_init (rs : List (Int × Int)) (init : Int) :
    rs.foldl (fun a b => min a b.1) init ≤ init := by
  induction rs generalizing init with
  | nil => simp
  | cons r rs ih => exact le_trans (ih (min init r.1)) (min_le_left _ _)

theorem foldl_min_le_mem (rs : List (Int × Int)) (init : Int) :
    ∀ b ∈ rs, rs.foldl (fun a b => min a b.1) init ≤ b.1 := by
  induction rs generalizing init with
  | nil => simp
  | cons r rs ih =>
      intro b hb
      rcases List.mem_cons.mp hb with h | h
      · subst h
        exact le_trans (foldl_min_le_init rs (min init b.1)) (min_le_right _ _)
      · exact ih (min init r.1) b h

theorem foldl_min_attained (rs : List (Int × Int)) (init : Int) :
    rs.foldl (fun a b => min a b.1) init = init
      ∨ ∃ b ∈ rs, b.1 = rs.foldl (fun a b => min a b.1) init := by
  induction rs generalizing init with
  | nil => exact Or.inl rfl
  | cons r rs ih =>
      rcases ih (min init r.1) with h | ⟨b, hb, hbv⟩
      · rcases min_choice init r.1 with hm | hm
        · exact Or.inl (by rw [List.foldl_cons, h, hm])
        · exact Or.inr ⟨r, List.mem_cons_self .., by rw [List.foldl_cons, h, hm]⟩
      · exact Or.inr ⟨b, List.mem_cons_of_mem _ hb, hbv⟩

theorem foldl_max_init_le (rs : List (Int × Int)) (init : Int) :
    init ≤ rs.foldl (fun a b => max a b.2) init := by
  induction rs generalizing init with
  | nil => simp
  | cons r rs ih => exact le_trans (le_max_left _ _) (ih (max init r.2))

theorem foldl_max_mem_le (rs : List (Int × Int)) (init : Int) :
    ∀ b ∈ rs, b.2 ≤ rs.foldl (fun a b => max a b.2) init := by
  induction rs generalizing init with
  | nil => simp
  | cons r rs ih =>
      intro b hb
      rcases List.mem_cons.mp hb with h | h
      · subst h
        exact le_trans (le_max_right _ _) (foldl_max_init_le rs (max init b.2))
      · exact ih (max init r.2) b h

theorem foldl_max_attained (rs : List (Int × Int)) (init : Int) :
    rs.foldl (fun a b => max a b.2) init = init
      ∨ ∃ b ∈ rs, b.2 = rs.foldl (fun a b => max a b.2) init := by
  induction rs generalizing init with
  | nil => exact Or.inl rfl
  | cons r rs ih =>
      rcases ih (max init r.2) with h | ⟨b, hb, hbv⟩
      · rcases max_choice init r.2 with hm | hm
        · exact Or.inl (by rw [List.foldl_cons, h, hm])
        · exact Or.inr ⟨r, List.mem_cons_self .., by rw [List.foldl_cons, h, hm]⟩
      · exact Or.inr ⟨b, List.mem_cons_of_mem _ hb, hbv⟩

theorem fsGet_filter_append (l : Fs) (n v : String) :
    fsGet ((l.filter fun e => e.1 != n) ++ [(n, v)]) n = some v := by
  induction l with
  | nil => simp [fsGet, List.find?]
  | cons e rest ih =>
      by_cases h : e.1 = n
      · simp only [List.filter_cons, h, bne_self_eq_false]
        exact ih
      · have hb : (e.1 != n) = true := bne_iff_ne.mpr h
        have hf : (e.1 == n) = false := beq_eq_false_iff_ne.mpr h
        simp only [List.filter_cons, hb, if_true]
        simp only [fsGet, List.find?, hf] at ih ⊢
        exact ih

theorem fsGet_fsSet (fs : Fs) (n v : String) : fsGet (fsSet fs n v) n = some v := by
  exact fsGet_filter_append fs n v

theorem read_ok_of_rows (s : Sheet) (h : s.rows ≠ []) :
    ∃ mi, read_meeting_info_from_excel s = .ok mi := by
  cases hr : s.rows with
  | nil => exact absurd hr h
  | cons r rs =>
      refine ⟨[("meeting_theme", .str s.theme), ("meeting_number", .str s.number),
        ("earliest_join_time", .time (rs.foldl (fun a b => min a b.1) r.1)),
        ("latest_leave_time", .time (rs.foldl (fun a b => max a b.2) r.2))], ?_⟩
      simp [read_meeting_info_from_excel, extract_meeting_times, hr, Bind.bind, Except.bind]

theorem read_info_shape (s : Sheet) (mi : MeetingInfo)
    (h : read_meeting_info_from_excel s = .ok mi) :
    mi.map Prod.fst
        = ["meeting_theme", "meeting_number", "earliest_join_time", "latest_leave_time"]
      ∧ dictGet mi "scheduled_start_time" = .error ("KeyError: scheduled_start_time")
      ∧ dictGet mi "end_time" = .error ("KeyError: end_time") := by
  cases hr : s.rows with
  | nil =>
      simp [read_meeting_info_from_excel, extract_meeting_times, hr,
        Bind.bind, Except.bind] at h
  | cons r rs =>
      simp only [read_meeting_info_from_excel, extract_meeting_times, hr,
        Bind.bind, Except.bind, Except.ok.injEq] at h
      subst h
      exact ⟨rfl, rfl, rfl⟩

theorem process_sheet_err (files : List String) (name : String) (mi : MeetingInfo)
    (e : String) (h : dictGet mi "scheduled_start_time" = .error e) :
    process_sheet files name mi = .error e := by
  simp [process_sheet, new_base_name, getTime, h, Bind.bind, Except.bind]

theorem process_loop_first_err (files : List String) (sheets : List Sheet)
    (hmatch : ∃ s ∈ sheets, globMatch EXCEL_PATTERN s.name = true)
    (hrows : ∀ s ∈ sheets, s.rows ≠ []) :
    process_loop read_meeting_info_from_excel files sheets
      = .error ("KeyError: scheduled_start_time") := by
  induction sheets with
  | nil => simp at hmatch
  | cons s rest ih =>
      by_cases hm : globMatch EXCEL_PATTERN s.name = true
      · obtain ⟨mi, hmi⟩ := read_ok_of_rows s (hrows s (List.mem_cons_self ..))
        have hps := process_sheet_err files s.name mi ("KeyError: scheduled_start_time")
          (read_info_shape s mi hmi).2.1
        simp [process_loop, hm, hmi, hps, Bind.bind, Except.bind]
      · obtain ⟨s2, hs2, hg2⟩ := hmatch
        rcases List.mem_cons.mp hs2 with hh | hh
        · exact absurd (hh ▸ hg2) hm
        · have hrec := ih ⟨s2, hh, hg2⟩ fun x hx => hrows x (List.mem_cons_of_mem _ hx)
          simpa [process_loop, hm] using hrec

/-! ## Claims -/

/-- C1: on any directory with at least one discovery-pattern spreadsheet
(each with a non-degenerate timing table, so that extraction itself
succeeds), the batch pipeline raises an uncaught `KeyError` before any
rename: the extracted record holds exactly the keys `meeting_theme`,
`meeting_number`, `earliest_join_time`, `latest_leave_time`, the
`scheduled_start_time` and `end_time` lookups on it fail, and
`process_all_meetings` propagates `KeyError: scheduled_start_time`, leaving
the filesystem untouched. -/
theorem claim_C1 (files : List String) (sheets : List Sheet) (fs : Fs)
    (hmatch : ∃ s ∈ sheets, globMatch EXCEL_PATTERN s.name = true)
    (hrows : ∀ s ∈ sheets, s.rows ≠ []) :
    (∀ s ∈ sheets, ∀ mi, read_meeting_info_from_excel s = .ok mi →
        mi.map Prod.fst
            = ["meeting_theme", "meeting_number", "earliest_join_time", "latest_leave_time"]
          ∧ dictGet mi "scheduled_start_time" = .error ("KeyError: scheduled_start_time")
          ∧ dictGet mi "end_time" = .error ("KeyError: end_time"))
      ∧ process_all_meetings files sheets = .error ("KeyError: scheduled_start_time")
      ∧ run_batch read_meeting_info_from_excel files sheets fs
          = (some ("KeyError: scheduled_start_time"), fs) := by
  have hl := process_loop_first_err files sheets hmatch hrows
  refine ⟨fun s _ mi hmi => read_info_shape s mi hmi, hl, ?_⟩
  simp [run_batch, hl]

/-- Witness for C1 at a one-spreadsheet directory. -/
theorem claim_C1_witness :
    (∀ s ∈ [exSheet], ∀ mi, read_meeting_info_from_excel s = .ok mi →
        mi.map Prod.fst
            = ["meeting_theme", "meeting_number", "earliest_join_time", "latest_leave_time"]
          ∧ dictGet mi "scheduled_start_time" = .error ("KeyError: scheduled_start_time")
          ∧ dictGet mi "end_time" = .error ("KeyError: end_time"))
      ∧ process_all_meetings [exSheet.name] [exSheet] = .error ("KeyError: scheduled_start_time")
      ∧ run_batch read_meeting_info_from_excel [exSheet.name] [exSheet] [(exSheet.name, "xlsx-bytes")]
          = (some ("KeyError: scheduled_start_time"), [(exSheet.name, "xlsx-bytes")]) :=
  claim_C1 [exSheet.name] [exSheet] [(exSheet.name, "xlsx-bytes")]
    ⟨exSheet, by decide, by decide⟩ (by decide)

/-- C2, evaluation at the failing input: the record extracted from a
spreadsheet never carries `scheduled_start_time`, so the stem computation of
line 139 raises `KeyError` instead of producing the spec's canonical base
name `【earliest_join_time:YYYY-MM-DD】theme`, which for this record would be
`【2023-09-12】Q3 Planning`. -/
theorem claim_C2_code_bug :
    read_meeting_info_from_excel exSheet = .ok exInfo
      ∧ dictGet exInfo "scheduled_start_time" = .error ("KeyError: scheduled_start_time")
      ∧ new_base_name exInfo = .error ("KeyError: scheduled_start_time")
      ∧ process_sheet [exSheet.name] exSheet.name exInfo
          = .error ("KeyError: scheduled_start_time")
      ∧ canonical_base_name exJoin "Q3 Planning" = "【2023-09-12】Q3 Planning" := by
  decide

/-- C5, evaluation at the failing input: an extraction failure in the first
meeting (empty timing table) propagates out of `process_all_meetings` — the
second, well-formed spreadsheet in the directory is never processed and the
batch aborts, contrary to the claimed per-meeting isolation. -/
theorem claim_C5_code_bug :
    globMatch EXCEL_PATTERN exSheetEmpty.name = true
      ∧ globMatch EXCEL_PATTERN exSheet.name = true
      ∧ process_all_meetings [exSheetEmpty.name, exSheet.name] [exSheetEmpty, exSheet]
          = .error ("IndexError: empty participant table")
      ∧ run_batch read_meeting_info_from_excel [exSheetEmpty.name, exSheet.name]
          [exSheetEmpty, exSheet] [(exSheetEmpty.name, "E"), (exSheet.name, "S")]
          = (some ("IndexError: empty participant table"),
             [(exSheetEmpty.name, "E"), (exSheet.name, "S")]) := by
  decide

/-- C4: rename pairs are materialized for a meeting exactly when video,
summary and transcription all resolved (and then they are the four pairs
sharing one stem); if any of the three fails to resolve the whole meeting,
spreadsheet included, contributes nothing; and the batch applies the
materialized pairs only after the resolution loop has finished every
meeting — a resolution-phase exception means nothing at all is applied. The
loop is stated for an arbitrary record reader, with the script's
instantiation recorded as the third conjunct. -/
theorem claim_C4 (reader : Sheet → Except String MeetingInfo) (files : List String)
    (sheets : List Sheet) (fs : Fs) (name : String) (mi : MeetingInfo) :
    (∀ ops, process_sheet files name mi = .ok (some ops) →
        ∃ nb v su tr, new_base_name mi = .ok nb
          ∧ find_matching_video_file files mi = .ok (some v)
          ∧ find_matching_transcription_files files mi = .ok (some su, some tr)
          ∧ ops = [(name, nb ++ ".xlsx"), (v, nb ++ ".mp4"),
                   (su, nb ++ "_Summary.txt"), (tr, nb ++ "_Transcription.txt")])
      ∧ (∀ nb v st, new_base_name mi = .ok nb →
           find_matching_video_file files mi = .ok v →
           find_matching_transcription_files files mi = .ok st →
           (v = none ∨ st.1 = none ∨ st.2 = none) →
           process_sheet files name mi = .ok none)
      ∧ process_all_meetings files sheets = process_loop read_meeting_info_from_excel files sheets
      ∧ (∀ e, process_loop reader files sheets = .error e →
           run_batch reader files sheets fs = (some e, fs))
      ∧ (∀ peers, process_loop reader files sheets = .ok peers →
           run_batch reader files sheets fs = applyRenames peers fs) := by
  refine ⟨?_, ?_, rfl, ?_, ?_⟩
  · intro ops hops
    cases hnb : new_base_name mi with
    | error e => simp [process_sheet, hnb, Bind.bind, Except.bind] at hops
    | ok nb =>
        cases hv : find_matching_video_file files mi with
        | error e => simp [process_sheet, hnb, hv, Bind.bind, Except.bind] at hops
        | ok v =>
            cases hst : find_matching_transcription_files files mi with
            | error e => simp [process_sheet, hnb, hv, hst, Bind.bind, Except.bind] at hops
            | ok st =>
                obtain ⟨su, tr⟩ := st
                cases v with
                | none => simp [process_sheet, hnb, hv, hst, Bind.bind, Except.bind] at hops
                | some v0 =>
                    cases su with
                    | none => simp [process_sheet, hnb, hv, hst, Bind.bind, Except.bind] at hops
                    | some su0 =>
                        cases tr with
                        | none =>
                            simp [process_sheet, hnb, hv, hst, Bind.bind, Except.bind] at hops
                        | some tr0 =>
                            simp only [process_sheet, hnb, hv, hst, Bind.bind, Except.bind,
                              Except.ok.injEq, Option.some.injEq] at hops
                            exact ⟨nb, v0, su0, tr0, rfl, rfl, rfl, hops.symm⟩
  · intro nb v st hnb hv hst hfail
    obtain ⟨su, tr⟩ := st
    simp only [process_sheet, hnb, hv, hst, Bind.bind, Except.bind]
    rcases hfail with h | h | h
    · subst h
      cases su <;> cases tr <;> rfl
    · simp only at h
      subst h
      cases v <;> cases tr <;> rfl
    · simp only at h
      subst h
      cases v <;> cases su <;> rfl
  · intro e h
    simp [run_batch, h]
  · intro peers h
    simp [run_batch, h]

/-- Witness for C4: an unmatched meeting record is skipped whole, and an
empty resolution phase applies nothing. -/
theorem claim_C4_witness :
    process_sheet [] exSheet.name exFullInfo = .ok none
      ∧ run_batch read_meeting_info_from_excel [] [] [] = (none, []) := by
  have h := claim_C4 read_meeting_info_from_excel [] [] [] exSheet.name exFullInfo
  refine ⟨?_, ?_⟩
  · exact h.2.1 ("【2023-09-12】Q3 Planning") none (none, none)
      (by decide) (by decide) (by decide) (Or.inl rfl)
  · exact h.2.2.2.2 [] (by decide)

/-- C3, counterexample: two summary files (and no transcription file) lie in
the ±2s window, so directory matching yields two files of the summary kind —
yet the resolver returns both matched paths, labelling the second one as the
transcription, instead of rejecting the kind as ambiguous. -/
theorem claim_C3_cex :
    (summaryMatches [exSummaryA, exSummaryB] exT0 (windowOffsets 2)).length = 2
      ∧ find_matching_transcription_files [exSummaryA, exSummaryB] exEndInfo
          = .ok (some exSummaryA, some exSummaryB) := by
  decide

/-- C3, amended: ambiguity rejection is per kind only for the video artifact
(any match count other than one yields no path); for summary and
transcription the code pools the two kinds and rejects only on a pooled
total other than two, returning the pooled first and second entries
otherwise — even when both are files of the same kind. -/
theorem claim_C3_amended (files : List String) (mi : MeetingInfo) :
    (∀ sst num, getTime mi "scheduled_start_time" = .ok sst →
        dictGet mi "meeting_number" = .ok num →
        (globDir files (video_pattern sst (pyStr num))).length ≠ 1 →
        find_matching_video_file files mi = .ok none)
      ∧ (∀ et, getTime mi "end_time" = .ok et →
          (transMatches files et (windowOffsets 2)).length ≠ 2 →
          find_matching_transcription_files files mi = .ok (none, none))
      ∧ (∀ et, getTime mi "end_time" = .ok et →
          (transMatches files et (windowOffsets 2)).length = 2 →
          find_matching_transcription_files files mi
            = .ok ((transMatches files et (windowOffsets 2))[0]?,
                   (transMatches files et (windowOffsets 2))[1]?)) := by
  refine ⟨?_, ?_, ?_⟩
  · intro sst num h1 h2 h3
    simp [find_matching_video_file, h1, h2, h3, Bind.bind, Except.bind]
  · intro et h1 h2
    simp [find_matching_transcription_files, h1, h2, Bind.bind, Except.bind]
  · intro et h1 h2
    simp [find_matching_transcription_files, h1, h2, Bind.bind, Except.bind]

/-- Witness for the amended C3: two video segments make the video kind
ambiguous and nothing is returned for it; an empty directory fails the
pooled-total test and returns no transcription or summary path. -/
theorem claim_C3_amended_witness :
    find_matching_video_file [exVideoA, exVideoB] exFullInfo = .ok none
      ∧ find_matching_transcription_files [] exEndInfo = .ok (none, none) := by
  have h1 := claim_C3_amended [exVideoA, exVideoB] exFullInfo
  have h2 := claim_C3_amended [] exEndInfo
  exact ⟨h1.1 exT0 (.str "713309188") (by decide) (by decide) (by decide),
         h2.2.1 exT0 (by decide) (by decide)⟩

/-- C6, counterexample: with the tolerance window {-1, 0, 1}, the claim
requires one video pattern per offset, but the pattern for offset −1 (or +1)
is not among the patterns the video matcher uses — it globs a single
zero-offset pattern. -/
theorem claim_C6_cex :
    ¬ (∀ d ∈ windowOffsets 1, video_pattern (exT0 + d) "713309188"
          ∈ code_video_patterns exT0 "713309188") := by
  decide

/-- C6, amended: the video candidate pattern set is the spec's generator
applied to the degenerate window containing only the zero offset — a single
pattern `TM-<scheduled_start_time>-<number>-*.mp4` with the meeting number
embedded literally; no tolerance offsets are applied to video matching, and
`find_matching_video_file` globs exactly this set. -/
theorem claim_C6_amended (files : List String) (mi : MeetingInfo) (sst : Int)
    (number : String)
    (h1 : getTime mi "scheduled_start_time" = .ok sst)
    (h2 : dictGet mi "meeting_number" = .ok (.str number)) :
    code_video_patterns sst number = spec_video_patterns sst number [0]
      ∧ find_matching_video_file files mi
          = (let matched := (code_video_patterns sst number).flatMap (globDir files)
             if matched.length = 1 then .ok matched.head? else .ok none) := by
  constructor
  · simp [code_video_patterns, spec_video_patterns]
  · simp [find_matching_video_file, h1, h2, code_video_patterns, pyStr,
      Bind.bind, Except.bind]

/-- Witness for the amended C6 at the example meeting record, over a
directory holding exactly one matching video file. -/
theorem claim_C6_amended_witness :
    code_video_patterns exT0 "713309188" = spec_video_patterns exT0 "713309188" [0]
      ∧ find_matching_video_file [exVideoA] exFullInfo
          = (let matched := (code_video_patterns exT0 "713309188").flatMap (globDir [exVideoA])
             if matched.length = 1 then .ok matched.head? else .ok none) :=
  claim_C6_amended [exVideoA] exFullInfo exT0 "713309188" (by decide) (by decide)

/-- C7, counterexample: the canonical renamed spreadsheet name for the
example meeting, `【2023-09-12】Q3 Planning.xlsx`, still matches the
spreadsheet discovery pattern — the re-scan does find a renamed output. -/
theorem claim_C7_cex :
    globMatch EXCEL_PATTERN (canonical_base_name exJoin "Q3 Planning" ++ ".xlsx") = true := by
  decide

/-- C7, amended: after renaming, the re-scan is clean for the video, summary
and transcription outputs (their names cannot match a pattern that ends in
`.xlsx`), but the renamed spreadsheet itself always matches the discovery
pattern again, for every theme and every calendar date: the two
`-<digit>` segments of the embedded `YYYY-MM-DD` date satisfy the pattern's
`-[0-9]` and `-[0-9a-zA-Z]` anchors. -/
theorem claim_C7_amended (theme : String) (t y mo d : Int)
    (hciv : civilFromDays (t.ediv 86400) = (y, mo, d))
    (hmo : 1 ≤ mo ∧ mo ≤ 12) (hd : 1 ≤ d ∧ d ≤ 31) :
    globMatch EXCEL_PATTERN ("【" ++ fmtYMD t ++ "】" ++ theme ++ ".xlsx") = true
      ∧ globMatch EXCEL_PATTERN ("【" ++ fmtYMD t ++ "】" ++ theme ++ ".mp4") = false
      ∧ globMatch EXCEL_PATTERN ("【" ++ fmtYMD t ++ "】" ++ theme ++ "_Summary.txt") = false
      ∧ globMatch EXCEL_PATTERN
          ("【" ++ fmtYMD t ++ "】" ++ theme ++ "_Transcription.txt") = false := by
  refine ⟨?_, ?_, ?_, ?_⟩
  · have hf := fmtYMD_eq t y mo d hciv
    obtain ⟨cm, rm2, hpm, hcm1, hcm2⟩ := pad2_shape mo (by omega) (by omega)
    obtain ⟨cd, rd2, hpd, hcd1, hcd2⟩ := pad2_shape d (by omega) (by omega)
    rw [globMatch, tokenize_excel, hf]
    have hmain := excel_toks_match ('【' :: (pad4 y).data) rm2 (rd2 ++ '】' :: theme.data)
      cm cd ⟨hcm1, hcm2⟩ ⟨hcd1, hcd2⟩
    simpa [String.data_append, hpm, hpd, List.append_assoc,
      show "【".data = ['【'] from rfl, show "】".data = ['】'] from rfl,
      show "-".data = ['-'] from rfl] using hmain
  · refine excel_no_match_of_last _ '4' ?_ (by decide)
    rw [String.data_append, List.getLast?_append_of_ne_nil _ (by decide)]
    rfl
  · refine excel_no_match_of_last _ 't' ?_ (by decide)
    rw [String.data_append, List.getLast?_append_of_ne_nil _ (by decide)]
    rfl
  · refine excel_no_match_of_last _ 't' ?_ (by decide)
    rw [String.data_append, List.getLast?_append_of_ne_nil _ (by decide)]
    rfl

/-- Witness for the amended C7 at the example date 2023-09-12 and theme
`Q3 Planning`. -/
theorem claim_C7_amended_witness :
    globMatch EXCEL_PATTERN ("【" ++ fmtYMD exT0 ++ "】" ++ "Q3 Planning" ++ ".xlsx") = true
      ∧ globMatch EXCEL_PATTERN ("【" ++ fmtYMD exT0 ++ "】" ++ "Q3 Planning" ++ ".mp4") = false
      ∧ globMatch EXCEL_PATTERN
          ("【" ++ fmtYMD exT0 ++ "】" ++ "Q3 Planning" ++ "_Summary.txt") = false
      ∧ globMatch EXCEL_PATTERN
          ("【" ++ fmtYMD exT0 ++ "】" ++ "Q3 Planning" ++ "_Transcription.txt") = false :=
  claim_C7_amended "Q3 Planning" exT0 2023 9 12 (by decide) (by decide) (by decide)

/-- C9: for every spreadsheet with a non-empty per-participant timing table,
`extract_meeting_times` returns the pair (minimum of the first-join-time
column, maximum of the last-leave-time column). -/
theorem claim_C9 (rows : List (Int × Int)) (h : rows ≠ []) :
    ∃ a b, extract_meeting_times rows = .ok (a, b)
      ∧ (∀ r ∈ rows, a ≤ r.1 ∧ r.2 ≤ b)
      ∧ (∃ r ∈ rows, r.1 = a) ∧ (∃ r ∈ rows, r.2 = b) := by
  cases rows with
  | nil => exact absurd rfl h
  | cons r rs =>
      refine ⟨_, _, rfl, ?_, ?_, ?_⟩
      · intro x hx
        rcases List.mem_cons.mp hx with hx | hx
        · subst hx
          exact ⟨foldl_min_le_init rs x.1, foldl_max_init_le rs x.2⟩
        · exact ⟨foldl_min_le_mem rs r.1 x hx, foldl_max_mem_le rs r.2 x hx⟩
      · rcases foldl_min_attained rs r.1 with hm | ⟨b, hb, hbv⟩
        · exact ⟨r, List.mem_cons_self .., hm.symm⟩
        · exact ⟨b, List.mem_cons_of_mem _ hb, hbv⟩
      · rcases foldl_max_attained rs r.2 with hm | ⟨b, hb, hbv⟩
        · exact ⟨r, List.mem_cons_self .., hm.symm⟩
        · exact ⟨b, List.mem_cons_of_mem _ hb, hbv⟩

/-- Witness for C9 at a concrete two-row table. -/
theorem claim_C9_witness :
    ∃ a b, extract_meeting_times [(3, 5), (1, 9)] = .ok (a, b)
      ∧ (∀ r ∈ [((3 : Int), (5 : Int)), (1, 9)], a ≤ r.1 ∧ r.2 ≤ b)
      ∧ (∃ r ∈ [((3 : Int), (5 : Int)), (1, 9)], r.1 = a)
      ∧ (∃ r ∈ [((3 : Int), (5 : Int)), (1, 9)], r.2 = b) :=
  claim_C9 [(3, 5), (1, 9)] (by decide)

/-- C10: for nested tolerance windows, the transcription/summary candidate
pattern set and the resulting pooled match list are monotone. -/
theorem claim_C10 (endTime : Int) (W W2 : List Int) (files : List String)
    (hW : W ⊆ W2) :
    (∀ p ∈ transPatterns endTime W, p ∈ transPatterns endTime W2)
      ∧ (∀ f ∈ transMatches files endTime W, f ∈ transMatches files endTime W2) := by
  constructor
  · intro p hp
    rw [transPatterns, List.mem_flatMap] at hp ⊢
    obtain ⟨d, hd, hm⟩ := hp
    exact ⟨d, hW hd, hm⟩
  · intro f hf
    rw [transMatches, List.mem_flatMap] at hf ⊢
    obtain ⟨d, hd, hm⟩ := hf
    exact ⟨d, hW hd, hm⟩

/-- Witness for C10: the ±1 window inside the script's ±2 window, over a
directory holding one summary file. -/
theorem claim_C10_witness :
    (∀ p ∈ transPatterns exT0 (windowOffsets 1), p ∈ transPatterns exT0 (windowOffsets 2))
      ∧ (∀ f ∈ transMatches [exSummaryA] exT0 (windowOffsets 1),
           f ∈ transMatches [exSummaryA] exT0 (windowOffsets 2)) :=
  claim_C10 exT0 (windowOffsets 1) (windowOffsets 2) [exSummaryA] (by decide)

/-- C8, counterexample: the target `b` already exists with content `B`; the
move neither raises nor preserves it — it succeeds and replaces the content. -/
theorem claim_C8_cex :
    fsGet [("a", "A"), ("b", "B")] "b" = some "B"
      ∧ os_rename "a" "b" [("a", "A"), ("b", "B")] = .ok [("b", "A")]
      ∧ fsGet [("b", "A")] "b" = some "A" := by decide

/-- C8, amended: whenever the source exists, POSIX `os.rename` succeeds —
even onto an existing target — and the target afterwards holds the source's
content; the pre-existing target content is silently lost rather than
protected by an error. -/
theorem claim_C8_amended (fs : Fs) (src dst c : String) (h : fsGet fs src = some c) :
    os_rename src dst fs = .ok (fsSet (fsRemove fs src) dst c)
      ∧ fsGet (fsSet (fsRemove fs src) dst c) dst = some c := by
  exact ⟨by rw [os_rename, h], fsGet_fsSet _ _ _⟩

/-- Witness for the amended C8, at a state where the target exists. -/
theorem claim_C8_amended_witness :
    os_rename "a" "b" [("a", "A"), ("b", "B")]
        = .ok (fsSet (fsRemove [("a", "A"), ("b", "B")] "a") "b" "A")
      ∧ fsGet (fsSet (fsRemove [("a", "A"), ("b", "B")] "a") "b" "A") "b" = some "A" :=
  claim_C8_amended [("a", "A"), ("b", "B")] "a" "b" "A" (by decide)

end TMRecOrg
